import Mathlib

/-!
Verification of the AI Code Reviewer & Mentor analysis pipeline and its
backend service layer, as a shallow embedding in Lean 4.

JavaScript strings are embedded as `List Char`; JavaScript numbers that the
code uses as integers are embedded as `Int`/`Nat`; the scorer's fractional
weights are embedded as `Rat`.  Fallible operations return `Option`/`Except`.

The Python AI agent (detectors.py, scoring.py, agent.py) is not part of the
available sources; the definitions for it below are modelled from the
specification's algorithm descriptions and carry a doc comment saying so.
The Node backend (validators.js, reviews.js, authMiddleware.js, aiService.js)
is available and embedded directly from source.
-/

namespace CodeReviewer

/-! ## Data model (spec section 3) -/

/-- Issue severity, a closed enumeration. -/
inductive Severity where
  | error
  | warning
  | info
deriving DecidableEq, Repr

/-- Issue category, a closed enumeration. -/
inductive Category where
  | bug
  | performance
  | security
  | cleanCode
  | antiPattern
deriving DecidableEq, Repr

/-- One located finding, as produced by a detector or the external model. -/
structure Issue where
  line : Nat
  severity : Severity
  category : Category
  message : List Char
  explanation : List Char
  suggestion : List Char
deriving DecidableEq, Repr

/-- One of the five scoring dimensions. -/
inductive Dimension where
  | correctness
  | readability
  | maintainability
  | performance
  | security
deriving DecidableEq, Repr

/-- The five dimension scores plus the overall score. -/
structure ScoreCard where
  correctness : Int
  readability : Int
  maintainability : Int
  performance : Int
  security : Int
  overall : Int
deriving DecidableEq, Repr

/-- A qualitative per-dimension additive adjustment supplied by the model. -/
structure Adjustment where
  correctness : Rat
  readability : Rat
  maintainability : Rat
  performance : Rat
  security : Rat
deriving DecidableEq, Repr

/-- The adjustment delta for one dimension. -/
def Adjustment.get (a : Adjustment) : Dimension → Rat
  | .correctness => a.correctness
  | .readability => a.readability
  | .maintainability => a.maintainability
  | .performance => a.performance
  | .security => a.security

/-! ## Scorer (spec section 4.3)

Modelled from the spec: the scoring engine lives in the AI agent's
`scoring.py`, which is not among the available sources; the algorithm below
follows the spec's section 4.3 step by step (base 100, severity deductions
scaled by a category-by-dimension weight matrix, clamping, optional model
adjustment, rounded-mean overall). -/

/-- Modelled from the spec: severity deduction (error 15, warning 8, info 3). -/
def severityDeduction : Severity → Rat
  | .error => 15
  | .warning => 8
  | .info => 3

/-- Modelled from the spec: the category-by-dimension weight matrix. -/
def categoryWeight : Category → Dimension → Rat
  | .bug, .correctness => 3 / 2
  | .bug, .security => 1 / 2
  | .security, .security => 2
  | .security, .correctness => 1 / 2
  | .performance, .performance => 3 / 2
  | .cleanCode, .readability => 1
  | .cleanCode, .maintainability => 1
  | .antiPattern, .maintainability => 3 / 2
  | .antiPattern, .readability => 1 / 2
  | _, _ => 0

/-- The deduction one issue contributes to one dimension. -/
def issueDeduction (d : Dimension) (i : Issue) : Rat :=
  severityDeduction i.severity * categoryWeight i.category d

/-- Clamp a rational to the interval [0, 100]. -/
def clamp100 (x : Rat) : Rat := max 0 (min 100 x)

/-- A dimension's value before clamping: 100 minus the summed deductions. -/
def rawDimension (issues : List Issue) (d : Dimension) : Rat :=
  100 - (issues.map (issueDeduction d)).sum

/-- A dimension's value after clamping and the optional model adjustment. -/
def dimScoreQ (issues : List Issue) (adj : Option Adjustment) (d : Dimension) : Rat :=
  let base := clamp100 (rawDimension issues d)
  match adj with
  | none => base
  | some a => clamp100 (base + a.get d)

/-- A dimension's final integer value. -/
def dimScore (issues : List Issue) (adj : Option Adjustment) (d : Dimension) : Int :=
  round (dimScoreQ issues adj d)

/-- Modelled from the spec: `score(issues, modelAdjustment) -> ScoreCard`.
`overall` is the unweighted arithmetic mean of the five dimensions, rounded
to the nearest integer. -/
def score (issues : List Issue) (adj : Option Adjustment) : ScoreCard :=
  let c := dimScore issues adj .correctness
  let r := dimScore issues adj .readability
  let m := dimScore issues adj .maintainability
  let p := dimScore issues adj .performance
  let s := dimScore issues adj .security
  { correctness := c
    readability := r
    maintainability := m
    performance := p
    security := s
    overall := round ((((c + r + m + p + s : Int) : Rat)) / 5) }

/-! ## Detectors and the detector registry (spec sections 4.1 and 4.4)

Modelled from the spec: the five detectors and the registry live in the AI
agent's `detectors.py` and `agent.py`, which are not among the available
sources.  Each detector below implements representative pattern rules named
by the spec for its variant, scanning the line-split view of the code; the
registry activates a detector when its focus area is requested or `all` is
requested, following the documented `if category in focus_areas` dispatch. -/

/-- Split a character list at newline characters, as `code.split('\n')`. -/
def splitLinesAux (acc : List Char) : List Char → List (List Char)
  | [] => [acc.reverse]
  | c :: rest =>
    if c = '\n' then acc.reverse :: splitLinesAux [] rest
    else splitLinesAux (c :: acc) rest

/-- The line-split view of the code. -/
def splitLines (code : List Char) : List (List Char) := splitLinesAux [] code

/-- Whether `needle` occurs as a contiguous run inside `hay`. -/
def containsSub (needle : List Char) : List Char → Bool
  | [] => needle.isEmpty
  | c :: rest => needle.isPrefixOf (c :: rest) || containsSub needle rest

/-- Build an issue with empty narrative fields filled by the detector. -/
def mkIssue (line : Nat) (sev : Severity) (cat : Category) (msg : List Char) : Issue :=
  { line := line
    severity := sev
    category := cat
    message := msg
    explanation := []
    suggestion := [] }

/-- Modelled from the spec: the Bug detector's loose-equality rule — a line
using `==` without `===` is flagged as a type-coercion risk. -/
def bugDetector (lines : List (List Char)) : List Issue :=
  lines.enum.filterMap fun p =>
    if containsSub ('=' :: '=' :: []) p.2 && !containsSub ('=' :: '=' :: '=' :: []) p.2 then
      some (mkIssue (p.1 + 1) .warning .bug ("Loose equality comparison".toList))
    else none

/-- Modelled from the spec: the Security detector's dynamic-markup/eval-sink
rule — a line mentioning `eval(` or `innerHTML` is flagged. -/
def securityDetector (lines : List (List Char)) : List Issue :=
  lines.enum.filterMap fun p =>
    if containsSub ("eval(".toList) p.2 || containsSub ("innerHTML".toList) p.2 then
      some (mkIssue (p.1 + 1) .error .security ("Potential injection sink".toList))
    else none

/-- Modelled from the spec: the Performance detector's unremoved
event-subscription rule — `addEventListener` lines are flagged when the code
never calls `removeEventListener`. -/
def performanceDetector (lines : List (List Char)) : List Issue :=
  if lines.any (fun l => containsSub ("removeEventListener".toList) l) then []
  else
    lines.enum.filterMap fun p =>
      if containsSub ("addEventListener".toList) p.2 then
        some (mkIssue (p.1 + 1) .warning .performance ("Listener is never removed".toList))
      else none

/-- Modelled from the spec: the CleanCode detector's long-line rule — a line
longer than 120 characters is flagged. -/
def cleanCodeDetector (lines : List (List Char)) : List Issue :=
  lines.enum.filterMap fun p =>
    if 120 < p.2.length then
      some (mkIssue (p.1 + 1) .info .cleanCode ("Line exceeds 120 characters".toList))
    else none

/-- Net brace-nesting change contributed by one line ('\x7b' opens, '\x7d'
closes). -/
def braceDelta (l : List Char) : Int :=
  ((l.filter (fun c => c = '\x7b')).length : Int) - ((l.filter (fun c => c = '\x7d')).length : Int)

/-- Modelled from the spec: scan for the first lines at which brace nesting
exceeds depth 4, flagging each entry past the threshold. -/
def nestingScan (idx : Nat) (depth : Int) : List (List Char) → List Issue
  | [] => []
  | l :: rest =>
    let d := depth + braceDelta l
    if depth ≤ 4 ∧ 4 < d then
      mkIssue idx .warning .antiPattern ("Nesting depth exceeds 4".toList) ::
        nestingScan (idx + 1) d rest
    else nestingScan (idx + 1) d rest

/-- Modelled from the spec: the AntiPattern detector's deep-nesting rule. -/
def antiPatternDetector (lines : List (List Char)) : List Issue :=
  nestingScan 1 0 lines

/-- The focus-area names accepted at the boundary. -/
def bugsName : List Char := "bugs".toList

/-- The `performance` focus-area name. -/
def performanceName : List Char := "performance".toList

/-- The `security` focus-area name. -/
def securityName : List Char := "security".toList

/-- The `clean-code` focus-area name. -/
def cleanCodeName : List Char := "clean-code".toList

/-- The `all` focus-area name. -/
def allName : List Char := "all".toList

/-- Modelled from the spec: a detector with focus-area name `f` is active
when `f` is requested or `all` is requested. -/
def detectorActive (focus : List (List Char)) (f : List Char) : Bool :=
  decide (f ∈ focus) || decide (allName ∈ focus)

/-- The focus area that activates the detector emitting a given category
(the AntiPattern detector is activated by the `clean-code` focus area). -/
def focusNameOfCategory : Category → List Char
  | .bug => bugsName
  | .performance => performanceName
  | .security => securityName
  | .cleanCode => cleanCodeName
  | .antiPattern => cleanCodeName

/-- Modelled from the spec: the Detector Registry — run every active
detector over the line-split code and concatenate their findings in the
documented listing order. -/
def runDetectors (focus : List (List Char)) (code : List Char) : List Issue :=
  let lines := splitLines code
  (if detectorActive focus bugsName then bugDetector lines else []) ++
  (if detectorActive focus cleanCodeName then antiPatternDetector lines else []) ++
  (if detectorActive focus securityName then securityDetector lines else []) ++
  (if detectorActive focus performanceName then performanceDetector lines else []) ++
  (if detectorActive focus cleanCodeName then cleanCodeDetector lines else [])

/-! ## Model Analyzer (spec section 4.2)

Modelled from the spec: the Model Analyzer lives in the AI agent's
`agent.py`/`prompts.py`, which are not among the available sources.  The
external call's possible endings (a raw reply, a timeout, a transport
failure) are embedded as an outcome type; the reply is untrusted data whose
structural validation rejects, never coerces, malformed fields; `analyze`
maps every ending to `.ok` or a typed `Failure`, so it is total — it never
raises into the Orchestrator. -/

/-- A validated structured reply from the external model. -/
structure ModelReply where
  issues : List Issue
  improvedCode : List Char
  mentorExplanation : List Char
  followUpQuestions : List (List Char)
  adjustment : Option Adjustment
deriving DecidableEq, Repr

/-- An untrusted issue as decoded from the provider's reply. -/
structure RawIssue where
  line : Int
  severity : List Char
  category : List Char
  message : Option (List Char)
  explanation : Option (List Char)
  suggestion : Option (List Char)
deriving DecidableEq, Repr

/-- An untrusted reply as decoded from the provider, fields all optional. -/
structure RawReply where
  issues : Option (List RawIssue)
  improvedCode : Option (List Char)
  mentorExplanation : Option (List Char)
  followUpQuestions : Option (List (List Char))
  adjustment : Option Adjustment
deriving DecidableEq, Repr

/-- The Analyzer's typed failure values. -/
inductive Failure where
  | timeout
  | transport
  | invalidReply
deriving DecidableEq, Repr

/-- How the external call ended. -/
inductive CallOutcome where
  | reply (r : RawReply)
  | timeout
  | transport
deriving DecidableEq, Repr

/-- Parse a severity string against its closed enumeration. -/
def parseSeverity (s : List Char) : Option Severity :=
  if s = "error".toList then some .error
  else if s = "warning".toList then some .warning
  else if s = "info".toList then some .info
  else none

/-- Parse a category string against its closed enumeration. -/
def parseCategory (s : List Char) : Option Category :=
  if s = "bug".toList then some .bug
  else if s = "performance".toList then some .performance
  else if s = "security".toList then some .security
  else if s = "clean-code".toList then some .cleanCode
  else if s = "anti-pattern".toList then some .antiPattern
  else none

/-- Validate one untrusted issue: every field present, enumerations
respected, line number non-negative; reject otherwise. -/
def validateRawIssue (ri : RawIssue) : Option Issue := do
  let sev ← parseSeverity ri.severity
  let cat ← parseCategory ri.category
  let msg ← ri.message
  let expl ← ri.explanation
  let sug ← ri.suggestion
  if 0 ≤ ri.line then
    some { line := ri.line.toNat, severity := sev, category := cat
           message := msg, explanation := expl, suggestion := sug }
  else none

/-- Validate a whole untrusted reply against the `ModelReply` shape. -/
def validateReply (r : RawReply) : Option ModelReply := do
  let rawIssues ← r.issues
  let issues ← rawIssues.mapM validateRawIssue
  let improved ← r.improvedCode
  let mentor ← r.mentorExplanation
  let fu ← r.followUpQuestions
  some { issues := issues, improvedCode := improved, mentorExplanation := mentor
         followUpQuestions := fu, adjustment := r.adjustment }

/-- Modelled from the spec: `analyze` resolves every ending of the external
call to a validated reply or a typed `Failure` — timeouts and transport
failures map to failures, and a structurally invalid reply is rejected. -/
def analyze : CallOutcome → Except Failure ModelReply
  | .timeout => .error .timeout
  | .transport => .error .transport
  | .reply r =>
    match validateReply r with
    | some m => .ok m
    | none => .error .invalidReply

/-! ## Orchestrator (spec section 4.4)

Modelled from the spec: the Orchestrator lives in the AI agent's `agent.py`,
which is not among the available sources.  It merges rule-based issues ahead
of model-reported ones, always invokes the Scorer, and degrades rather than
fails when the Model Analyzer returns a `Failure`. -/

/-- The request entering the pipeline (validated by the boundary). -/
structure AnalysisRequest where
  code : List Char
  language : List Char
  skillLevel : List Char
  focusAreas : List (List Char)
deriving DecidableEq, Repr

/-- The pipeline's sole output artifact. -/
structure ReviewResult where
  score : ScoreCard
  issues : List Issue
  improvedCode : List Char
  mentorExplanation : List Char
  followUpQuestions : List (List Char)
deriving DecidableEq, Repr

/-- The degraded mentor explanation used when deep analysis was unavailable. -/
def degradedExplanation : List Char :=
  "Deep analysis was unavailable; the findings below come from rule-based checks only.".toList

/-- Modelled from the spec: the Orchestrator's merge and fallback policy.
It is a total function into `ReviewResult`: whatever the Model Analyzer's
outcome, the caller receives a well-formed result, never an error shape. -/
def orchestrate (req : AnalysisRequest) (outcome : Except Failure ModelReply) : ReviewResult :=
  let ruleIssues := runDetectors req.focusAreas req.code
  match outcome with
  | .ok m =>
      { score := score (ruleIssues ++ m.issues) m.adjustment
        issues := ruleIssues ++ m.issues
        improvedCode := m.improvedCode
        mentorExplanation := m.mentorExplanation
        followUpQuestions := m.followUpQuestions }
  | .error _ =>
      { score := score ruleIssues none
        issues := ruleIssues
        improvedCode := []
        mentorExplanation := degradedExplanation
        followUpQuestions := [] }

/-! ## Request validation (src/backend/utils/validators.js)

`validateCodeReview` is an express-validator chain.  `body('code')` is first
sanitized with `.trim()` — which replaces the value in the request body — and
the trimmed value is then checked by `.notEmpty()` and
`.isLength({min: 10, max: 50000})`.  The language must be one of seven
supported names; `skillLevel` and `focusAreas` are optional with closed
vocabularies. -/

/-- The whitespace predicate used by the JavaScript `trim()` embedding. -/
def isJsWs (c : Char) : Bool :=
  c = ' ' || c = '\t' || c = '\n' || c = '\r'

/-- JavaScript `String.prototype.trim`: strip leading and trailing
whitespace. -/
def jsTrim (l : List Char) : List Char :=
  ((l.dropWhile isJsWs).reverse.dropWhile isJsWs).reverse

/-- The raw body of a POST /api/reviews/analyze request (string-typed
fields; absent optional fields are `none`). -/
structure RawReviewBody where
  code : List Char
  language : List Char
  skillLevel : Option (List Char)
  focusAreas : Option (List (List Char))
deriving DecidableEq, Repr

/-- The supported language names (validators.js `isIn` list). -/
def supportedLanguages : List (List Char) :=
  ["javascript", "typescript", "python", "go", "java", "cpp", "c"].map String.toList

/-- The valid skill levels (validators.js `isIn` list). -/
def validSkillLevels : List (List Char) :=
  ["junior", "mid", "senior"].map String.toList

/-- The valid focus-area names (validators.js custom check). -/
def validFocusAreas : List (List Char) :=
  ["bugs", "performance", "security", "clean-code", "all"].map String.toList

/-- The `body('code')` chain: trim, then not-empty, then length within
[10, 50000] — the length bounds apply to the trimmed value. -/
def validateCodeField (code : List Char) : Bool :=
  let t := jsTrim code
  decide (0 < t.length) && decide (10 ≤ t.length) && decide (t.length ≤ 50000)

/-- The `body('language')` chain: trim, not-empty, in the supported list. -/
def validateLanguageField (language : List Char) : Bool :=
  let t := jsTrim language
  decide (0 < t.length) && decide (t ∈ supportedLanguages)

/-- The optional `body('skillLevel')` chain. -/
def validateSkillField : Option (List Char) → Bool
  | none => true
  | some s => decide (jsTrim s ∈ validSkillLevels)

/-- The optional `body('focusAreas')` custom check: every entry valid. -/
def validateFocusField : Option (List (List Char)) → Bool
  | none => true
  | some areas => areas.all (fun a => decide (a ∈ validFocusAreas))

/-- `validateCodeReview`: the request passes when every field check does. -/
def validateCodeReview (b : RawReviewBody) : Bool :=
  validateCodeField b.code && validateLanguageField b.language &&
    validateSkillField b.skillLevel && validateFocusField b.focusAreas

/-! ## POST /api/reviews/analyze (src/backend/routes/reviews.js)

The route handler destructures the (sanitized) body with defaults
`skillLevel = 'mid'` and
`focusAreas = ['bugs', 'performance', 'security', 'clean-code']`, then calls
the analysis pipeline.  A failed validation answers 400 before the handler
runs. -/

/-- The default focus areas applied by the route handler. -/
def defaultFocusAreas : List (List Char) :=
  ["bugs", "performance", "security", "clean-code"].map String.toList

/-- The default skill level applied by the route handler. -/
def defaultSkillLevel : List Char := "mid".toList

/-- The pipeline request the handler builds from the sanitized body:
trimmed code and language, defaults filled for the optional fields. -/
def mkRequest (b : RawReviewBody) : AnalysisRequest :=
  { code := jsTrim b.code
    language := jsTrim b.language
    skillLevel := b.skillLevel.getD defaultSkillLevel
    focusAreas := b.focusAreas.getD defaultFocusAreas }

/-- What the analyze route answers. -/
inductive AnalyzeOutcome where
  | validationError
  | result (r : ReviewResult)
deriving DecidableEq, Repr

/-- The analyze route: validation gates pipeline entry — an invalid body is
answered 400 and the pipeline is never invoked. -/
def postAnalyze (b : RawReviewBody) (outcome : Except Failure ModelReply) : AnalyzeOutcome :=
  if validateCodeReview b then .result (orchestrate (mkRequest b) outcome)
  else .validationError

/-! ## GET /api/reviews/history (src/backend/routes/reviews.js)

`limit = parseInt(req.query.limit) || 20` and
`offset = parseInt(req.query.offset) || 0`; then `limit > 100` answers 400,
`limit < 1 || offset < 0` answers 400, and otherwise the stored rows are
paged and `stats.avg_score ? Math.round(stats.avg_score) : 0` is reported.
The `Review` model (SQL LIMIT/OFFSET paging, COUNT and AVG aggregates) is
not among the available sources and is embedded with standard SQL
semantics. -/

/-- Numeric value of a non-empty digit run. -/
def digitsVal (ds : List Char) : Nat :=
  ds.foldl (fun acc c => acc * 10 + (c.toNat - '0'.toNat)) 0

/-- JavaScript `parseInt` on an optional query string: skip leading
whitespace, take an optional sign and a leading digit run; `none` stands
for NaN (no digits, or the parameter absent). -/
def jsParseInt : Option (List Char) → Option Int
  | none => none
  | some s =>
    let t := s.dropWhile isJsWs
    let signed : Int × List Char :=
      match t with
      | '-' :: r => (-1, r)
      | '+' :: r => (1, r)
      | r => (1, r)
    let ds := signed.2.takeWhile Char.isDigit
    if ds.isEmpty then none else some (signed.1 * (digitsVal ds : Int))

/-- JavaScript `x || d` over a parse result: NaN and 0 both fall back to
the default. -/
def orDefault (v : Option Int) (d : Int) : Int :=
  match v with
  | none => d
  | some n => if n = 0 then d else n

/-- One stored review row; only the score column matters to the handler. -/
structure ReviewRow where
  score : Rat
deriving DecidableEq, Repr

/-- Modelled from the spec: `Review.getStats` average — SQL `AVG` is `NULL`
on an empty table and the arithmetic mean otherwise. -/
def avgScore (rows : List ReviewRow) : Option Rat :=
  if rows.isEmpty then none
  else some ((rows.map ReviewRow.score).sum / (rows.length : Rat))

/-- What the history route answers. -/
inductive HistoryOutcome where
  | badRequest
  | ok (reviews : List ReviewRow) (totalReviews : Nat) (averageScore : Int)
deriving DecidableEq, Repr

/-- JavaScript `stats.avg_score ? Math.round(stats.avg_score) : 0`: a null
or zero average displays as 0, anything else as its rounding. -/
def avgDisplay : Option Rat → Int
  | none => 0
  | some q => if q = 0 then 0 else round q

/-- The history route handler over the user's stored rows. -/
def historyHandler (qlimit qoffset : Option (List Char)) (rows : List ReviewRow) :
    HistoryOutcome :=
  let limit := orDefault (jsParseInt qlimit) 20
  let offset := orDefault (jsParseInt qoffset) 0
  if 100 < limit then .badRequest
  else if limit < 1 ∨ offset < 0 then .badRequest
  else
    let paged := (rows.drop offset.toNat).take limit.toNat
    .ok paged rows.length (avgDisplay (avgScore rows))

/-! ## Authentication middleware (src/backend/middleware/authMiddleware.js)

`authenticate` answers 401 when the Authorization header is missing or does
not start with `Bearer `, when `jwt.verify` rejects the token (invalid or
expired), or when the decoded user id has no row in the database; only
otherwise does control pass to the route handler.  Token verification and
the user table are external effects, embedded as explicit function
arguments. -/

/-- How `jwt.verify` can end. -/
inductive VerifyOutcome where
  | ok (userId : Nat)
  | invalidToken
  | expired
deriving DecidableEq, Repr

/-- What the middleware chain produces for the request. -/
inductive AuthOutcome where
  | unauthorized (msg : List Char)
  | serverError
  | proceed (userId : Nat)
deriving DecidableEq, Repr

/-- 401 message for a missing or non-Bearer header. -/
def noTokenMsg : List Char := "No authorization token provided".toList

/-- 401 message for a token failing verification. -/
def invalidTokenMsg : List Char := "Invalid token".toList

/-- 401 message for an expired token. -/
def expiredTokenMsg : List Char := "Token expired".toList

/-- 401 message for a decoded user id absent from the database. -/
def userNotFoundMsg : List Char := "User not found".toList

/-- The `Bearer ` marker the header must start with (7 characters, matching
`authHeader.substring(7)`). -/
def bearerMarker : List Char := "Bearer ".toList

/-- The authenticate middleware. -/
def authenticate (authHeader : Option (List Char)) (verify : List Char → VerifyOutcome)
    (findById : Nat → Option Nat) : AuthOutcome :=
  match authHeader with
  | none => .unauthorized noTokenMsg
  | some h =>
    if bearerMarker.isPrefixOf h then
      match verify (h.drop 7) with
      | .invalidToken => .unauthorized invalidTokenMsg
      | .expired => .unauthorized expiredTokenMsg
      | .ok uid =>
        match findById uid with
        | none => .unauthorized userNotFoundMsg
        | some u => .proceed u
    else .unauthorized noTokenMsg

/-- What a protected route answers. -/
inductive RouteAnswer (α : Type) where
  | status401 (msg : List Char)
  | status500
  | handled (a : α)
deriving DecidableEq, Repr

/-- A protected review route: the handler body runs only when the
middleware proceeds. -/
def protectedRoute {α : Type} (authHeader : Option (List Char))
    (verify : List Char → VerifyOutcome) (findById : Nat → Option Nat)
    (handler : Nat → α) : RouteAnswer α :=
  match authenticate authHeader verify findById with
  | .unauthorized m => .status401 m
  | .serverError => .status500
  | .proceed u => .handled (handler u)

/-! ## Concrete sample values used by witnesses and counterexamples -/

/-- A concrete error-severity bug issue. -/
def sampleIssueA : Issue :=
  { line := 1, severity := .error, category := .bug
    message := "a".toList, explanation := [], suggestion := [] }

/-- A concrete warning-severity security issue. -/
def sampleIssueB : Issue :=
  { line := 2, severity := .warning, category := .security
    message := "b".toList, explanation := [], suggestion := [] }

/-- A code string of 50001 characters whose first character is a space. -/
def paddedCode : List Char := ' ' :: List.replicate 50000 'a'

/-- A request body whose code is a single non-whitespace character. -/
def shortBody : RawReviewBody :=
  { code := "x".toList, language := "javascript".toList
    skillLevel := none, focusAreas := none }

/-- A request body whose code is `paddedCode`. -/
def paddedBody : RawReviewBody :=
  { code := paddedCode, language := "javascript".toList
    skillLevel := none, focusAreas := none }

/-- A small request body with both optional fields absent. -/
def sampleBody : RawReviewBody :=
  { code := "const x = 1;".toList, language := "javascript".toList
    skillLevel := none, focusAreas := none }

/-- A raw reply whose only issue carries a severity outside the closed
enumeration. -/
def badRawReply : RawReply :=
  { issues := some [{ line := 1, severity := "fatal".toList, category := "bug".toList
                      message := some [], explanation := some [], suggestion := some [] }]
    improvedCode := some []
    mentorExplanation := some []
    followUpQuestions := some []
    adjustment := none }

/-- The issue the Bug detector reports for the line `a == b`. -/
def looseEqIssue : Issue :=
  mkIssue 1 .warning .bug ("Loose equality comparison".toList)

/-- Two concrete stored review rows with scores 80 and 90. -/
def sampleRows : List ReviewRow := [{ score := 80 }, { score := 90 }]

/-! ## Bounds lemmas for the scorer -/

theorem clamp100_nonneg (x : Rat) : 0 ≤ clamp100 x := le_max_left 0 _

theorem clamp100_le (x : Rat) : clamp100 x ≤ 100 := by
  unfold clamp100
  exact max_le (by norm_num) (min_le_left _ _)

theorem round_nonneg_of_nonneg {q : Rat} (h : 0 ≤ q) : 0 ≤ round q := by
  rw [round_eq]
  exact Int.floor_nonneg.mpr (by linarith)

theorem round_le_hundred {q : Rat} (h : q ≤ 100) : round q ≤ 100 := by
  rw [round_eq]
  have h101 : q + 1 / 2 < ((101 : Int) : Rat) := by push_cast; linarith
  have := Int.floor_lt.mpr h101
  omega

theorem dimScoreQ_mem (issues : List Issue) (adj : Option Adjustment) (d : Dimension) :
    0 ≤ dimScoreQ issues adj d ∧ dimScoreQ issues adj d ≤ 100 := by
  unfold dimScoreQ
  cases adj with
  | none => exact ⟨clamp100_nonneg _, clamp100_le _⟩
  | some a => exact ⟨clamp100_nonneg _, clamp100_le _⟩

theorem dimScore_mem (issues : List Issue) (adj : Option Adjustment) (d : Dimension) :
    0 ≤ dimScore issues adj d ∧ dimScore issues adj d ≤ 100 := by
  obtain ⟨h0, h1⟩ := dimScoreQ_mem issues adj d
  exact ⟨round_nonneg_of_nonneg h0, round_le_hundred h1⟩

end CodeReviewer

namespace CodeReviewer

/-! ## Field-unfolding helper lemmas for the scorer -/

theorem score_correctness_def (issues : List Issue) (adj : Option Adjustment) :
    (score issues adj).correctness = dimScore issues adj .correctness := rfl

theorem score_readability_def (issues : List Issue) (adj : Option Adjustment) :
    (score issues adj).readability = dimScore issues adj .readability := rfl

theorem score_maintainability_def (issues : List Issue) (adj : Option Adjustment) :
    (score issues adj).maintainability = dimScore issues adj .maintainability := rfl

theorem score_performance_def (issues : List Issue) (adj : Option Adjustment) :
    (score issues adj).performance = dimScore issues adj .performance := rfl

theorem score_security_def (issues : List Issue) (adj : Option Adjustment) :
    (score issues adj).security = dimScore issues adj .security := rfl

theorem score_overall_def (issues : List Issue) (adj : Option Adjustment) :
    (score issues adj).overall =
      round ((((dimScore issues adj .correctness + dimScore issues adj .readability +
        dimScore issues adj .maintainability + dimScore issues adj .performance +
        dimScore issues adj .security : Int)) : Rat) / 5) := rfl

/-- C2: for every issue list and model adjustment, the ScoreCard's `overall`
equals the unweighted arithmetic mean of the five dimensions rounded to the
nearest integer, and the empty issue list with no adjustment yields exactly
the all-100 ScoreCard. -/
theorem score_overall_is_rounded_mean :
    (∀ (issues : List Issue) (adj : Option Adjustment),
      (score issues adj).overall =
        round ((((score issues adj).correctness + (score issues adj).readability +
          (score issues adj).maintainability + (score issues adj).performance +
          (score issues adj).security : Int) : Rat) / 5)) ∧
    score [] none = { correctness := 100, readability := 100, maintainability := 100
                      performance := 100, security := 100, overall := 100 } := by
  constructor
  · intro issues adj
    rw [score_overall_def, score_correctness_def, score_readability_def,
      score_maintainability_def, score_performance_def, score_security_def]
  · have hq : ∀ d, dimScoreQ [] none d = 100 := by
      intro d
      simp [dimScoreQ, rawDimension, clamp100]
    have hd : ∀ d, dimScore [] none d = 100 := by
      intro d
      rw [dimScore, hq, round_eq]
      norm_num
    simp [score, hd]
    rw [round_eq]
    norm_num

/-- C3: every ScoreCard the scorer produces has each of its five dimensions
and its overall inside [0, 100], for every issue list and every model
adjustment. -/
theorem score_bounds (issues : List Issue) (adj : Option Adjustment) :
    (0 ≤ (score issues adj).correctness ∧ (score issues adj).correctness ≤ 100) ∧
    (0 ≤ (score issues adj).readability ∧ (score issues adj).readability ≤ 100) ∧
    (0 ≤ (score issues adj).maintainability ∧ (score issues adj).maintainability ≤ 100) ∧
    (0 ≤ (score issues adj).performance ∧ (score issues adj).performance ≤ 100) ∧
    (0 ≤ (score issues adj).security ∧ (score issues adj).security ≤ 100) ∧
    (0 ≤ (score issues adj).overall ∧ (score issues adj).overall ≤ 100) := by
  have hc := dimScore_mem issues adj .correctness
  have hr := dimScore_mem issues adj .readability
  have hm := dimScore_mem issues adj .maintainability
  have hp := dimScore_mem issues adj .performance
  have hs := dimScore_mem issues adj .security
  refine ⟨⟨?_, ?_⟩, ⟨?_, ?_⟩, ⟨?_, ?_⟩, ⟨?_, ?_⟩, ⟨?_, ?_⟩, ⟨?_, ?_⟩⟩
  · rw [score_correctness_def]; exact hc.1
  · rw [score_correctness_def]; exact hc.2
  · rw [score_readability_def]; exact hr.1
  · rw [score_readability_def]; exact hr.2
  · rw [score_maintainability_def]; exact hm.1
  · rw [score_maintainability_def]; exact hm.2
  · rw [score_performance_def]; exact hp.1
  · rw [score_performance_def]; exact hp.2
  · rw [score_security_def]; exact hs.1
  · rw [score_security_def]; exact hs.2
  · rw [score_overall_def]
    apply round_nonneg_of_nonneg
    apply div_nonneg _ (by norm_num)
    have : (0 : Int) ≤ dimScore issues adj .correctness + dimScore issues adj .readability +
        dimScore issues adj .maintainability + dimScore issues adj .performance +
        dimScore issues adj .security := by
      have := hc.1; have := hr.1; have := hm.1; have := hp.1; have := hs.1
      omega
    exact_mod_cast this
  · rw [score_overall_def]
    apply round_le_hundred
    rw [div_le_iff₀ (by norm_num : (0 : Rat) < 5)]
    have : dimScore issues adj .correctness + dimScore issues adj .readability +
        dimScore issues adj .maintainability + dimScore issues adj .performance +
        dimScore issues adj .security ≤ 500 := by
      have := hc.2; have := hr.2; have := hm.2; have := hp.2; have := hs.2
      omega
    calc (((dimScore issues adj .correctness + dimScore issues adj .readability +
          dimScore issues adj .maintainability + dimScore issues adj .performance +
          dimScore issues adj .security : Int)) : Rat) ≤ ((500 : Int) : Rat) := by
            exact_mod_cast this
      _ = 100 * 5 := by norm_num

/-- C8: the Scorer is deterministic in its inputs, and any two permutations
of the same issue list produce the same ScoreCard — deductions are a pure
summation before clamping, hence order-independent. -/
theorem score_deterministic_and_perm_invariant :
    (∀ (issues : List Issue) (adj : Option Adjustment), score issues adj = score issues adj) ∧
    ∀ (issues₁ issues₂ : List Issue) (adj : Option Adjustment),
      issues₁.Perm issues₂ → score issues₁ adj = score issues₂ adj := by
  refine ⟨fun _ _ => rfl, fun i1 i2 adj h => ?_⟩
  have hraw : ∀ d, rawDimension i1 d = rawDimension i2 d := by
    intro d
    unfold rawDimension
    rw [(h.map (issueDeduction d)).sum_eq]
  simp only [score, dimScore, dimScoreQ, hraw]

/-- Witness for C8 at a concrete two-element issue list and its swap. -/
theorem score_perm_witness :
    ([sampleIssueA, sampleIssueB].Perm [sampleIssueB, sampleIssueA]) ∧
    score [sampleIssueA, sampleIssueB] none = score [sampleIssueB, sampleIssueA] none :=
  ⟨List.Perm.swap sampleIssueB sampleIssueA [],
    score_deterministic_and_perm_invariant.2 _ _ none
      (List.Perm.swap sampleIssueB sampleIssueA [])⟩

end CodeReviewer

namespace CodeReviewer

/-! ## Detector category lemmas -/

theorem bugDetector_category (lines : List (List Char)) :
    ∀ i ∈ bugDetector lines, i.category = .bug := by
  intro i hi
  simp only [bugDetector, List.mem_filterMap] at hi
  obtain ⟨p, _, hp⟩ := hi
  split at hp
  · cases hp
    rfl
  · cases hp

theorem securityDetector_category (lines : List (List Char)) :
    ∀ i ∈ securityDetector lines, i.category = .security := by
  intro i hi
  simp only [securityDetector, List.mem_filterMap] at hi
  obtain ⟨p, _, hp⟩ := hi
  split at hp
  · cases hp
    rfl
  · cases hp

theorem performanceDetector_category (lines : List (List Char)) :
    ∀ i ∈ performanceDetector lines, i.category = .performance := by
  intro i hi
  simp only [performanceDetector] at hi
  split at hi
  · cases hi
  · simp only [List.mem_filterMap] at hi
    obtain ⟨p, _, hp⟩ := hi
    split at hp
    · cases hp
      rfl
    · cases hp

theorem cleanCodeDetector_category (lines : List (List Char)) :
    ∀ i ∈ cleanCodeDetector lines, i.category = .cleanCode := by
  intro i hi
  simp only [cleanCodeDetector, List.mem_filterMap] at hi
  obtain ⟨p, _, hp⟩ := hi
  split at hp
  · cases hp
    rfl
  · cases hp

theorem nestingScan_category (lines : List (List Char)) :
    ∀ (idx : Nat) (depth : Int), ∀ i ∈ nestingScan idx depth lines, i.category = .antiPattern := by
  induction lines with
  | nil =>
    intro idx depth i hi
    simp [nestingScan] at hi
  | cons l rest ih =>
    intro idx depth i hi
    rw [nestingScan] at hi
    split at hi
    · rcases List.mem_cons.mp hi with h | h
      · subst h
        rfl
      · exact ih _ _ i h
    · exact ih _ _ i hi

theorem antiPatternDetector_category (lines : List (List Char)) :
    ∀ i ∈ antiPatternDetector lines, i.category = .antiPattern :=
  fun i hi => nestingScan_category lines 1 0 i hi

/-- C6: the Detector Registry runs exactly the detectors activated by
`focusAreas` — every reported issue belongs to a requested focus area
(unless `all` was requested), and requesting `all` activates every
detector. -/
theorem runDetectors_respects_focus :
    ∀ (focus : List (List Char)) (code : List Char),
      (∀ i ∈ runDetectors focus code,
        allName ∈ focus ∨ focusNameOfCategory i.category ∈ focus) ∧
      (allName ∈ focus → runDetectors focus code = runDetectors [allName] code) := by
  intro focus code
  constructor
  · intro i hi
    unfold runDetectors at hi
    simp only [List.mem_append] at hi
    rcases hi with ((((h | h) | h) | h) | h)
    · by_cases hc : detectorActive focus bugsName = true
      · rcases (by simpa [detectorActive] using hc : bugsName ∈ focus ∨ allName ∈ focus) with
          hf | ha
        · rw [hc] at h
          simp only [if_true] at h
          rw [bugDetector_category _ i h]
          exact .inr hf
        · exact .inl ha
      · rw [Bool.not_eq_true] at hc
        rw [hc] at h
        simp at h
    · by_cases hc : detectorActive focus cleanCodeName = true
      · rcases (by simpa [detectorActive] using hc :
            cleanCodeName ∈ focus ∨ allName ∈ focus) with hf | ha
        · rw [hc] at h
          simp only [if_true] at h
          rw [antiPatternDetector_category _ i h]
          exact .inr hf
        · exact .inl ha
      · rw [Bool.not_eq_true] at hc
        rw [hc] at h
        simp at h
    · by_cases hc : detectorActive focus securityName = true
      · rcases (by simpa [detectorActive] using hc :
            securityName ∈ focus ∨ allName ∈ focus) with hf | ha
        · rw [hc] at h
          simp only [if_true] at h
          rw [securityDetector_category _ i h]
          exact .inr hf
        · exact .inl ha
      · rw [Bool.not_eq_true] at hc
        rw [hc] at h
        simp at h
    · by_cases hc : detectorActive focus performanceName = true
      · rcases (by simpa [detectorActive] using hc :
            performanceName ∈ focus ∨ allName ∈ focus) with hf | ha
        · rw [hc] at h
          simp only [if_true] at h
          rw [performanceDetector_category _ i h]
          exact .inr hf
        · exact .inl ha
      · rw [Bool.not_eq_true] at hc
        rw [hc] at h
        simp at h
    · by_cases hc : detectorActive focus cleanCodeName = true
      · rcases (by simpa [detectorActive] using hc :
            cleanCodeName ∈ focus ∨ allName ∈ focus) with hf | ha
        · rw [hc] at h
          simp only [if_true] at h
          rw [cleanCodeDetector_category _ i h]
          exact .inr hf
        · exact .inl ha
      · rw [Bool.not_eq_true] at hc
        rw [hc] at h
        simp at h
  · intro hall
    have h1 : ∀ f, detectorActive focus f = true := by
      intro f
      simp [detectorActive, hall]
    have h2 : ∀ f, detectorActive [allName] f = true := by
      intro f
      simp [detectorActive]
    simp [runDetectors, h1, h2]

/-- Witness for C6: the bug issue found in `a == b` under focus `bugs`
belongs to the `bugs` focus area, and adding `all` activates everything. -/
theorem runDetectors_focus_witness :
    (allName ∈ [bugsName] ∨ focusNameOfCategory looseEqIssue.category ∈ [bugsName]) ∧
    runDetectors [bugsName, allName] ("x".toList) = runDetectors [allName] ("x".toList) :=
  ⟨(runDetectors_respects_focus [bugsName] ("a == b".toList)).1 looseEqIssue (by decide),
    (runDetectors_respects_focus [bugsName, allName] ("x".toList)).2 (by decide)⟩

/-- C1: when the Model Analyzer fails, the Orchestrator still returns a
well-formed ReviewResult — rule-based issues and their score populated,
`improvedCode` empty, `followUpQuestions` empty, degraded mentor text —
and `orchestrate` is total, so the caller never sees an error-shaped
object. -/
theorem orchestrate_degrades_on_failure :
    ∀ (req : AnalysisRequest) (f : Failure),
      (orchestrate req (.error f)).improvedCode = [] ∧
      (orchestrate req (.error f)).followUpQuestions = [] ∧
      (orchestrate req (.error f)).mentorExplanation = degradedExplanation ∧
      (orchestrate req (.error f)).issues = runDetectors req.focusAreas req.code ∧
      (orchestrate req (.error f)).score = score (runDetectors req.focusAreas req.code) none :=
  fun _ _ => ⟨rfl, rfl, rfl, rfl, rfl⟩

/-- C4: the Model Analyzer resolves a timeout, a transport failure, or a
structurally invalid reply to a typed Failure, and resolves every possible
ending of the external call to either a validated reply or a typed
Failure — it never raises into the Orchestrator. -/
theorem analyze_returns_typed_failures :
    analyze .timeout = .error .timeout ∧
    analyze .transport = .error .transport ∧
    (∀ r : RawReply, validateReply r = none → analyze (.reply r) = .error .invalidReply) ∧
    (∀ o : CallOutcome, (∃ m, analyze o = .ok m) ∨ (∃ f, analyze o = .error f)) := by
  refine ⟨rfl, rfl, ?_, ?_⟩
  · intro r h
    simp [analyze, h]
  · intro o
    cases o with
    | timeout => exact .inr ⟨.timeout, rfl⟩
    | transport => exact .inr ⟨.transport, rfl⟩
    | reply r =>
      cases hv : validateReply r with
      | none => exact .inr ⟨.invalidReply, by simp [analyze, hv]⟩
      | some m => exact .inl ⟨m, by simp [analyze, hv]⟩

/-- Witness for C4 at a concrete reply whose severity is outside the
enumeration. -/
theorem analyze_invalid_reply_witness :
    validateReply badRawReply = none ∧
    analyze (.reply badRawReply) = .error .invalidReply := by
  have hval : validateReply badRawReply = none := by decide
  exact ⟨hval, analyze_returns_typed_failures.2.2.1 badRawReply hval⟩

/-- C7: the analyze route invokes the pipeline on the request built by
`mkRequest`; an absent `skillLevel` defaults to `mid` and an absent
`focusAreas` defaults to exactly the four named areas, `all` not among
them. -/
theorem analyze_route_defaults :
    ∀ (b : RawReviewBody) (o : Except Failure ModelReply),
      (validateCodeReview b = true →
        postAnalyze b o = .result (orchestrate (mkRequest b) o)) ∧
      (b.skillLevel = none → (mkRequest b).skillLevel = defaultSkillLevel) ∧
      (b.focusAreas = none →
        (mkRequest b).focusAreas = defaultFocusAreas ∧
          allName ∉ (mkRequest b).focusAreas) := by
  intro b o
  refine ⟨?_, ?_, ?_⟩
  · intro h
    simp [postAnalyze, h]
  · intro h
    simp [mkRequest, h]
  · intro h
    refine ⟨by simp [mkRequest, h], ?_⟩
    simp only [mkRequest, h, Option.getD_none]
    decide

/-- Witness for C7 at a concrete valid body with both optional fields
absent. -/
theorem analyze_route_defaults_witness :
    postAnalyze sampleBody (.error .timeout) =
      .result (orchestrate (mkRequest sampleBody) (.error .timeout)) ∧
    (mkRequest sampleBody).skillLevel = defaultSkillLevel ∧
    (mkRequest sampleBody).focusAreas = defaultFocusAreas ∧
    allName ∉ (mkRequest sampleBody).focusAreas :=
  ⟨(analyze_route_defaults sampleBody (.error .timeout)).1 (by decide),
    (analyze_route_defaults sampleBody (.error .timeout)).2.1 rfl,
    ((analyze_route_defaults sampleBody (.error .timeout)).2.2 rfl).1,
    ((analyze_route_defaults sampleBody (.error .timeout)).2.2 rfl).2⟩

end CodeReviewer

namespace CodeReviewer

/-! ## C5: validation of the code field -/

theorem jsTrim_padded : jsTrim paddedCode = List.replicate 50000 'a' := by
  have ha : isJsWs 'a' = false := by decide
  have hs : isJsWs ' ' = true := by decide
  have hdrop : ∀ m : Nat,
      List.dropWhile isJsWs (List.replicate m 'a') = List.replicate m 'a' := by
    intro m
    cases m with
    | zero => rfl
    | succ k =>
      rw [List.replicate_succ, List.dropWhile_cons]
      simp [ha]
  unfold paddedCode jsTrim
  rw [List.dropWhile_cons]
  simp only [hs, if_true]
  rw [hdrop, List.reverse_replicate, hdrop, List.reverse_replicate]

theorem paddedCode_length : paddedCode.length = 50001 := by
  unfold paddedCode
  rw [List.length_cons, List.length_replicate]

theorem validate_padded : validateCodeReview paddedBody = true := by
  have hcode : validateCodeField paddedCode = true := by
    simp only [validateCodeField, jsTrim_padded, List.length_replicate]
    norm_num
  simp only [validateCodeReview, paddedBody, hcode]
  decide

/-- C5 counterexample: a request whose code field is 50001 characters long
(50000 non-blank characters plus one space of padding) passes
`validateCodeReview` and reaches the pipeline, so a code field longer than
50000 characters is not always rejected. -/
theorem overlong_code_not_rejected :
    paddedCode.length = 50001 ∧
    validateCodeReview paddedBody = true ∧
    postAnalyze paddedBody (.error .timeout) ≠ .validationError := by
  refine ⟨paddedCode_length, validate_padded, ?_⟩
  simp [postAnalyze, validate_padded]

/-- C5 (amended): the validator trims the code field first, so every
request whose code is, after trimming leading and trailing whitespace,
shorter than 10 or longer than 50000 characters is rejected with a
validation error before pipeline entry, and the pipeline is never invoked
on it; raw lengths are not what is checked. -/
theorem trimmed_length_gates_pipeline :
    ∀ (b : RawReviewBody) (o : Except Failure ModelReply),
      ((jsTrim b.code).length < 10 ∨ 50000 < (jsTrim b.code).length) →
      postAnalyze b o = .validationError := by
  intro b o h
  have hfalse : validateCodeField b.code = false := by
    simp only [validateCodeField]
    rcases h with h | h
    · have hn : ¬ (10 ≤ (jsTrim b.code).length) := by omega
      simp [hn]
    · have hn : ¬ ((jsTrim b.code).length ≤ 50000) := by omega
      simp [hn]
  have hv : validateCodeReview b = false := by
    simp [validateCodeReview, hfalse]
  simp [postAnalyze, hv]

/-- Witness for the amended C5 at a one-character code field. -/
theorem trimmed_length_gates_witness :
    ((jsTrim shortBody.code).length < 10 ∨ 50000 < (jsTrim shortBody.code).length) ∧
    postAnalyze shortBody (.error .timeout) = .validationError :=
  ⟨Or.inl (by decide), trimmed_length_gates_pipeline shortBody (.error .timeout)
    (Or.inl (by decide))⟩

/-! ## C9: the history route -/

/-- C9 counterexample: the query `limit=0` is a limit less than 1, yet the
route answers normally with the default limit instead of a 400 error —
`parseInt('0') || 20` turns 0 into the default. -/
theorem history_limit_zero_not_rejected :
    historyHandler (some ('0' :: [])) none [] = .ok [] 0 0 := by decide

/-- C9 (amended): absent or non-numeric limit and offset fall back to 20
and 0, and so does a limit of exactly 0 (JavaScript `|| 20` treats 0 as
falsy); a limit above 100 or a negative limit or offset yields a 400 error
with no review data; otherwise the response carries at most `limit`
reviews, and `averageScore` is 0 when the user has no reviews and the
rounded average otherwise. -/
theorem history_handler_spec :
    ∀ (ql qo : Option (List Char)) (rows : List ReviewRow),
      (jsParseInt ql = none ∨ jsParseInt ql = some 0 →
        historyHandler ql qo rows = historyHandler none qo rows) ∧
      (jsParseInt qo = none ∨ jsParseInt qo = some 0 →
        historyHandler ql qo rows = historyHandler ql none rows) ∧
      (∀ n : Int, jsParseInt ql = some n → 100 < n →
        historyHandler ql qo rows = .badRequest) ∧
      (∀ n : Int, jsParseInt ql = some n → n < 0 →
        historyHandler ql qo rows = .badRequest) ∧
      (∀ n : Int, jsParseInt qo = some n → n < 0 →
        historyHandler ql qo rows = .badRequest) ∧
      (∀ out tot avg, historyHandler ql qo rows = .ok out tot avg →
        out.length ≤ (orDefault (jsParseInt ql) 20).toNat ∧
        tot = rows.length ∧
        (rows = [] → avg = 0) ∧
        (∀ q, avgScore rows = some q → avg = round q)) := by
  intro ql qo rows
  refine ⟨?_, ?_, ?_, ?_, ?_, ?_⟩
  · intro h
    have hnone : jsParseInt (none : Option (List Char)) = none := rfl
    have hEq : orDefault (jsParseInt ql) 20 =
        orDefault (jsParseInt (none : Option (List Char))) 20 := by
      rcases h with h | h <;> simp [h, hnone, orDefault]
    simp only [historyHandler, hEq]
  · intro h
    have hnone : jsParseInt (none : Option (List Char)) = none := rfl
    have hEq : orDefault (jsParseInt qo) 0 =
        orDefault (jsParseInt (none : Option (List Char))) 0 := by
      rcases h with h | h <;> simp [h, hnone, orDefault]
    simp only [historyHandler, hEq]
  · intro n hn h100
    have hlim : orDefault (jsParseInt ql) 20 = n := by
      simp only [hn, orDefault]
      rw [if_neg (by omega)]
    simp only [historyHandler, hlim]
    rw [if_pos h100]
  · intro n hn hneg
    have hlim : orDefault (jsParseInt ql) 20 = n := by
      simp only [hn, orDefault]
      rw [if_neg (by omega)]
    simp only [historyHandler, hlim]
    rw [if_neg (by omega), if_pos (Or.inl (by omega))]
  · intro n hn hneg
    have hoff : orDefault (jsParseInt qo) 0 = n := by
      simp only [hn, orDefault]
      rw [if_neg (by omega)]
    simp only [historyHandler, hoff]
    split
    · rfl
    · rw [if_pos (Or.inr (by omega))]
  · intro out tot avg h
    simp only [historyHandler] at h
    split at h
    · cases h
    · split at h
      · cases h
      · injection h with h1 h2 h3
        refine ⟨?_, h2.symm, ?_, ?_⟩
        · rw [← h1, List.length_take]
          exact min_le_left _ _
        · intro hrows
          subst hrows
          simp [avgScore, avgDisplay] at h3
          omega
        · intro q hq
          rw [hq] at h3
          rw [← h3]
          simp only [avgDisplay]
          split
          · rename_i hq0
            rw [hq0, round_zero]
          · rfl

end CodeReviewer

namespace CodeReviewer

/-- Witness for the amended C9: each guarantee exercised at concrete
queries and rows. -/
theorem history_handler_witness :
    historyHandler (some ('a' :: [])) none [] = historyHandler none none [] ∧
    historyHandler none (some ('a' :: [])) [] = historyHandler none none [] ∧
    historyHandler (some ('1' :: '0' :: '1' :: [])) none [] = .badRequest ∧
    historyHandler (some ('-' :: '5' :: [])) none [] = .badRequest ∧
    historyHandler none (some ('-' :: '5' :: [])) [] = .badRequest ∧
    sampleRows.length ≤ (orDefault (jsParseInt none) 20).toNat ∧
    (85 : Int) = round ((85 : Rat)) := by
  have h85 : round ((85 : Rat)) = 85 := by
    rw [round_eq]
    norm_num
  have havg : avgScore sampleRows = some 85 := by
    norm_num [avgScore, sampleRows]
  have hok : historyHandler none none sampleRows = .ok sampleRows 2 85 := by
    have hlim : orDefault (jsParseInt none) 20 = 20 := rfl
    have hoff : orDefault (jsParseInt none) 0 = 0 := rfl
    have hpaged : List.take ((20 : Int)).toNat (List.drop ((0 : Int)).toNat sampleRows) =
        sampleRows := by
      rw [show ((0 : Int)).toNat = 0 from rfl, show ((20 : Int)).toNat = 20 from rfl,
        List.drop_zero]
      exact List.take_of_length_le (by norm_num [sampleRows])
    have hlen : sampleRows.length = 2 := rfl
    simp only [historyHandler, hlim, hoff, havg, avgDisplay, hpaged, hlen]
    norm_num [h85]
  refine ⟨?_, ?_, ?_, ?_, ?_, ?_, ?_⟩
  · exact (history_handler_spec (some ('a' :: [])) none []).1 (Or.inl (by decide))
  · exact (history_handler_spec none (some ('a' :: [])) []).2.1 (Or.inl (by decide))
  · exact (history_handler_spec (some ('1' :: '0' :: '1' :: [])) none []).2.2.1 101
      (by decide) (by norm_num)
  · exact (history_handler_spec (some ('-' :: '5' :: [])) none []).2.2.2.1 (-5)
      (by decide) (by norm_num)
  · exact (history_handler_spec none (some ('-' :: '5' :: [])) []).2.2.2.2.1 (-5)
      (by decide) (by norm_num)
  · exact ((history_handler_spec none none sampleRows).2.2.2.2.2 sampleRows 2 85 hok).1
  · exact ((history_handler_spec none none sampleRows).2.2.2.2.2 sampleRows 2 85 hok).2.2.2
      85 havg

/-- C10: a protected review route answers 401 — and its handler body, hence
any review creation, read, or deletion, never runs — whenever the
Authorization header is missing, does not start with `Bearer `, carries a
token that verification rejects as invalid or expired, or decodes to a user
id absent from the database. -/
theorem protected_route_rejects_unauthenticated :
    ∀ (α : Type) (v : List Char → VerifyOutcome) (db : Nat → Option Nat)
      (handler : Nat → α),
      (protectedRoute none v db handler = .status401 noTokenMsg) ∧
      (∀ s, bearerMarker.isPrefixOf s = false →
        protectedRoute (some s) v db handler = .status401 noTokenMsg) ∧
      (∀ s, bearerMarker.isPrefixOf s = true → v (s.drop 7) = .invalidToken →
        protectedRoute (some s) v db handler = .status401 invalidTokenMsg) ∧
      (∀ s, bearerMarker.isPrefixOf s = true → v (s.drop 7) = .expired →
        protectedRoute (some s) v db handler = .status401 expiredTokenMsg) ∧
      (∀ s uid, bearerMarker.isPrefixOf s = true → v (s.drop 7) = .ok uid →
        db uid = none →
        protectedRoute (some s) v db handler = .status401 userNotFoundMsg) := by
  intro α v db handler
  refine ⟨rfl, ?_, ?_, ?_, ?_⟩
  · intro s h
    simp [protectedRoute, authenticate, h]
  · intro s h hv
    simp [protectedRoute, authenticate, h, hv]
  · intro s h hv
    simp [protectedRoute, authenticate, h, hv]
  · intro s uid h hv hdb
    simp [protectedRoute, authenticate, h, hv, hdb]

/-- Witness for C10 at a concrete Bearer header whose token fails
verification. -/
theorem protected_route_rejects_witness :
    bearerMarker.isPrefixOf ("Bearer abc".toList) = true ∧
    protectedRoute (some ("Bearer abc".toList)) (fun _ => VerifyOutcome.invalidToken)
      (fun _ => none) (fun _ => (0 : Nat)) = .status401 invalidTokenMsg :=
  ⟨by decide,
    (protected_route_rejects_unauthenticated Nat (fun _ => VerifyOutcome.invalidToken)
      (fun _ => none) (fun _ => (0 : Nat))).2.2.1 ("Bearer abc".toList) (by decide) rfl⟩

end CodeReviewer
